import Mathlib

/-!
Verification development for the MTA subway realtime sensor
(custom_components/mta_subway/sensor.py).

The Python source is shallowly embedded below.  Python dictionaries are
modelled as insertion-ordered association lists (`dlookup`, `dinsert`,
`dappend`, `dget_default` mirror dict lookup, dict assignment,
`defaultdict(list)[k].append(e)` and `defaultdict(list)[k]` read).
Network and protobuf decoding boundaries are modelled as explicit inputs:
the station CSV body arrives already split into header and rows exactly as
`csv.DictReader(r.text.splitlines())` would yield them, and each realtime
HTTP response carries its status code together with the outcome of
`FeedMessage.ParseFromString` on its body (`none` when decoding raises).
Machine integers are `Int` (epoch seconds); `math.ceil` of the exact
division is `Int.ceil` over `ℚ`.
-/

/-- One value of the station dictionary built per CSV row at sensor.py
lines 163-169.  Fields are `Option String` because `csv.DictReader`
substitutes `None` (its `restval`) when a row is shorter than the header. -/
structure StationRecord where
  stop_name : Option String
  south_direction_label : Option String
  north_direction_label : Option String
  complex_id : Option String
  deriving DecidableEq, Repr

/-- Python dict lookup `d[k]` as an option, over an insertion-ordered
association list. -/
def dlookup {α β : Type} [DecidableEq α] : List (α × β) → α → Option β
  | [], _ => none
  | (k, v) :: rest, q => if k = q then some v else dlookup rest q

/-- Python membership test `k in d`. -/
def dmem {α β : Type} [DecidableEq α] (d : List (α × β)) (k : α) : Bool :=
  (dlookup d k).isSome

/-- Python dict assignment `d[k] = v`: overwrite in place when the key is
present (insertion order of keys is preserved), append at the end
otherwise. -/
def dinsert {α β : Type} [DecidableEq α] : List (α × β) → α → β → List (α × β)
  | [], k, v => [(k, v)]
  | (k0, v0) :: rest, k, v =>
    if k0 = k then (k0, v) :: rest else (k0, v0) :: dinsert rest k v

/-- A network-level failure raised by `requests.get` (connection error,
timeout): the request did not complete. -/
structure FetchError where
  message : String
  deriving DecidableEq, Repr

/-- Errors that can escape `MTASubwayData.__get_stations`: a propagated
network failure, or a `KeyError` raised by `row[column]` when the CSV
header lacks the column. -/
inductive LoadError where
  | fetch (e : FetchError)
  | keyError (column : String)
  deriving DecidableEq, Repr

/-- The response to the Stations.csv request, with the body already split
into the header line and the data rows, as `csv.DictReader` reads them.
`status_code` is carried because the spec talks about it; the source never
inspects it. -/
structure StationsResponse where
  status_code : Nat
  header : List String
  rows : List (List String)
  deriving DecidableEq, Repr

/-- The position of a column among the `csv.DictReader` fieldnames. -/
def fieldIndex (column : String) : List String → Option Nat
  | [] => none
  | c :: rest =>
    if c = column then some 0 else (fieldIndex column rest).map (· + 1)

/-- `csv.DictReader` row access `row[column]`: a `KeyError` when `column`
is not among the fieldnames, otherwise the cell (or `none`, modelling the
`restval` `None`, when the row is shorter than the header). -/
def dictReaderGet (header row : List String) (column : String) :
    Except LoadError (Option String) :=
  match fieldIndex column header with
  | none => .error (.keyError column)
  | some i => .ok (row.get? i)

/-- One iteration of the loop at sensor.py lines 162-169: the cell reads
performed for one row, in source evaluation order, yielding the key
`row["GTFS Stop ID"]` and the record stored under it; the first failing
read raises. -/
def parseRow (header row : List String) :
    Except LoadError (Option String × StationRecord) :=
  match dictReaderGet header row "Stop Name" with
  | .error e => .error e
  | .ok stop_name =>
    match dictReaderGet header row "South Direction Label" with
    | .error e => .error e
    | .ok south =>
      match dictReaderGet header row "North Direction Label" with
      | .error e => .error e
      | .ok north =>
        match dictReaderGet header row "Complex ID" with
        | .error e => .error e
        | .ok cid =>
          match dictReaderGet header row "GTFS Stop ID" with
          | .error e => .error e
          | .ok gtfsId =>
            .ok (gtfsId, StationRecord.mk stop_name south north cid)

/-- The station directory: the dict built by `__get_stations`, keyed by
`row["GTFS Stop ID"]` (an `Option String`, since a short row yields the
`None` cell value, a legal Python dict key). -/
abbrev StationDirectory := List (Option String × StationRecord)

/-- The row loop of `__get_stations` (sensor.py lines 161-169), threading
the `result` dict; the first `KeyError` aborts the whole call. -/
def buildStations (header : List String) :
    List (List String) → StationDirectory → Except LoadError StationDirectory
  | [], acc => .ok acc
  | row :: rest, acc =>
    match parseRow header row with
    | .error e => .error e
    | .ok (k, sr) => buildStations header rest (dinsert acc k sr)

/-- `MTASubwayData.__get_stations` (sensor.py lines 156-172).  The network
outcome of `requests.get` is the explicit input: a raised network error
propagates; on any completed response the body is parsed with no status
check (the source never reads `r.status_code`). -/
def MTASubwayData.get_stations (net : Except FetchError StationsResponse) :
    Except LoadError StationDirectory :=
  match net with
  | .error e => .error (.fetch e)
  | .ok resp => buildStations resp.header resp.rows []

/-- The CSV columns read by `__get_stations`. -/
def requiredColumns : List String :=
  ["Stop Name", "South Direction Label", "North Direction Label",
   "Complex ID", "GTFS Stop ID"]

/-! ## Realtime feed model -/

/-- One `stop_time_update` of a GTFS-realtime trip update: the stop id
(with its one-character direction suffix) and `arrival.time` in epoch
seconds. -/
structure StopTimeUpdate where
  stop_id : String
  arrival_time : Int
  deriving DecidableEq, Repr

/-- One `trip_update` message: the route id of its trip and its ordered
stop-time updates. -/
structure TripUpdate where
  route_id : String
  stop_time_update : List StopTimeUpdate
  deriving DecidableEq, Repr

/-- One feed entity; `trip_update` is `some` exactly when
`entity.HasField("trip_update")` holds. -/
structure FeedEntity where
  trip_update : Option TripUpdate
  deriving DecidableEq, Repr

/-- One decoded `FeedMessage`: the header timestamp and the entity list. -/
structure FeedMessage where
  header_timestamp : Int
  entity : List FeedEntity
  deriving DecidableEq, Repr

/-- One completed realtime HTTP response: its status code and the outcome
of `FeedMessage.ParseFromString` on its body (`none` when decoding
raises). -/
structure FetchResponse where
  status_code : Nat
  parsed : Option FeedMessage
  deriving DecidableEq, Repr

/-- `MTASubwayData.__get_realtime_data` (sensor.py lines 174-199): every
completed response is examined; non-200 responses are logged and skipped,
parse failures are caught, logged and skipped, and the successfully
decoded feeds are collected in order. -/
def MTASubwayData.get_realtime_data (responses : List FetchResponse) :
    List FeedMessage :=
  responses.filterMap (fun r => if r.status_code = 200 then r.parsed else none)

/-- `math.ceil(float(arrival - current_time) / 60)` at sensor.py line 236:
the ceiling of the exact division, written with Euclidean integer division
so that it evaluates inside the kernel; `time_until_eq_ceil` below proves
it equal to `Int.ceil` of the rational division. -/
def time_until (arrival current_time : Int) : Int :=
  -((current_time - arrival) / 60)

/-- The embedded countdown really is the ceiling of
`(arrival - current_time) / 60` as a rational. -/
theorem time_until_eq_ceil (a c : Int) :
    time_until a c = Int.ceil ((a - c : ℚ) / 60) := by
  have h1 : ((a : ℚ) - c) / 60 = -((((c - a : ℤ) : ℚ)) / ((60 : ℕ) : ℚ)) := by
    push_cast
    ring
  rw [time_until, h1, Int.ceil_neg, Rat.floor_intCast_div_natCast]
  norm_num

/-- One arrival dict appended at sensor.py lines 232-237. -/
structure ArrivalEntry where
  time : Int
  line : String
  last_updated : Int
  time_until : Int
  deriving DecidableEq, Repr

/-- The `arrivals` defaultdict: full stop id (direction suffix included)
to its ordered entry list. -/
abbrev ArrivalsDict := List (String × List ArrivalEntry)

/-- `defaultdict(list)` append `d[k].append(e)`: extend the list under `k`
in place, or create the key at the end holding `[e]`. -/
def dappend : ArrivalsDict → String → ArrivalEntry → ArrivalsDict
  | [], k, e => [(k, [e])]
  | (k0, v) :: rest, k, e =>
    if k0 = k then (k0, v ++ [e]) :: rest else (k0, v) :: dappend rest k e

/-- `defaultdict(list)` read `d[k]`: return the stored list, or insert the
key bound to `[]` and return `[]` — a read of a missing key mutates the
dict.  Returns the dict after the read together with the value read. -/
def dget_default : ArrivalsDict → String → ArrivalsDict × List ArrivalEntry
  | [], k => ([(k, [])], [])
  | (k0, v) :: rest, k =>
    if k0 = k then ((k0, v) :: rest, v)
    else
      let (rest2, res) := dget_default rest k
      ((k0, v) :: rest2, res)

/-! ## Aggregation (sensor.py lines 216-240) -/

/-- The guarded append for one `stop_time_update` (sensor.py lines
227-237): strip the final character from the stop id, and append an
entry only when the full stop id is watched and the stripped id is a key
of the station dict built this refresh. -/
def processStu (stations : StationDirectory) (watched : List String)
    (current_time : Int) (route_id : String) (header_timestamp : Int)
    (acc : ArrivalsDict) (stu : StopTimeUpdate) : ArrivalsDict :=
  let stop_id_without_direction := stu.stop_id.dropRight 1
  if stu.stop_id ∈ watched ∧ dmem stations (some stop_id_without_direction) then
    dappend acc stu.stop_id
      { time := stu.arrival_time
        line := route_id
        last_updated := header_timestamp
        time_until := time_until stu.arrival_time current_time }
  else
    acc

/-- The loop over one feed entity (sensor.py lines 223-237): entities
without a `trip_update` field contribute nothing. -/
def processEntity (stations : StationDirectory) (watched : List String)
    (current_time header_timestamp : Int) (acc : ArrivalsDict)
    (ent : FeedEntity) : ArrivalsDict :=
  match ent.trip_update with
  | none => acc
  | some tu =>
    tu.stop_time_update.foldl
      (processStu stations watched current_time tu.route_id header_timestamp) acc

/-- The loop over one feed (sensor.py lines 220-237); the header timestamp
of the feed is stamped on every entry it contributes. -/
def processFeed (stations : StationDirectory) (watched : List String)
    (current_time : Int) (acc : ArrivalsDict) (feed : FeedMessage) :
    ArrivalsDict :=
  feed.entity.foldl
    (processEntity stations watched current_time feed.header_timestamp) acc

/-- The `arrivals` defaultdict exactly as it stands after the collection
loops and before sorting (sensor.py lines 216-237): values are in emission
order. -/
def rawArrivals (stations : StationDirectory) (watched : List String)
    (current_time : Int) (feeds : List FeedMessage) : ArrivalsDict :=
  feeds.foldl (processFeed stations watched current_time) []

/-- The sort key order of `v.sort(key=lambda x: x["time"])`. -/
def byTime (a b : ArrivalEntry) : Prop := a.time ≤ b.time

instance : DecidableRel byTime := fun a b =>
  inferInstanceAs (Decidable (a.time ≤ b.time))

instance : IsTotal ArrivalEntry byTime := ⟨fun a b => le_total a.time b.time⟩

instance : IsTrans ArrivalEntry byTime := ⟨fun _ _ _ h1 h2 => le_trans h1 h2⟩

/-- The full aggregation: collect, then sort every value in place by the
`time` field (sensor.py lines 239-240).  `list.sort` is a stable ascending
sort, modelled by insertion sort (stability is proved below). -/
def aggregate (stations : StationDirectory) (watched : List String)
    (current_time : Int) (feeds : List FeedMessage) : ArrivalsDict :=
  (rawArrivals stations watched current_time feeds).map
    (fun p => (p.1, List.insertionSort byTime p.2))

/-! ## The data holder and its throttled update -/

/-- The value assigned to `self.data` at sensor.py lines 242-245. -/
structure SnapshotData where
  stations : StationDirectory
  arrivals : ArrivalsDict
  deriving DecidableEq, Repr

/-- A value of the published snapshot dict, used to talk about which keys
the dict literal at sensor.py lines 242-245 actually has. -/
inductive SnapshotField where
  | stations (d : StationDirectory)
  | arrivals (a : ArrivalsDict)
  deriving DecidableEq, Repr

/-- The published snapshot as the Python dict literal it is: exactly the
two keys written at sensor.py lines 242-245. -/
def SnapshotData.toDict (s : SnapshotData) : List (String × SnapshotField) :=
  [("stations", SnapshotField.stations s.stations),
   ("arrivals", SnapshotField.arrivals s.arrivals)]

/-- The state of an `MTASubwayData` object: the watched station list, the
published `self.data` (initially `None`), and the throttle timestamp of
the wrapping `Throttle(SCAN_INTERVAL)` decorator (initially `None`). -/
structure MTASubwayData where
  watched_stations : List String
  data : Option SnapshotData
  last_update : Option Int
  deriving DecidableEq, Repr

instance instDecEqExcept {ε α : Type} [DecidableEq ε] [DecidableEq α] :
    DecidableEq (Except ε α) := fun x y =>
  match x, y with
  | .error e1, .error e2 =>
    if h : e1 = e2 then .isTrue (by rw [h]) else .isFalse (by simp [h])
  | .error _, .ok _ => .isFalse (by simp)
  | .ok _, .error _ => .isFalse (by simp)
  | .ok a, .ok b =>
    if h : a = b then .isTrue (by rw [h]) else .isFalse (by simp [h])

/-- What one call to the throttled `update` produces: the state after the
call, whether any network fetch was performed, and the outcome
(`.error` models an exception propagating to the caller). -/
structure UpdateOutcome where
  state : MTASubwayData
  fetched : Bool
  result : Except LoadError Unit
  deriving DecidableEq, Repr

/-- `SCAN_INTERVAL = timedelta(seconds=20)` (sensor.py line 29). -/
def SCAN_INTERVAL : Int := 20

/-- The body of `MTASubwayData.update` (sensor.py lines 207-245): load
the station dict first (an exception there aborts the whole call, leaving
`self.data` untouched), then fetch and decode the feeds, aggregate with
`current_time = int(time.time())`, and assign the new snapshot dict
wholesale. -/
def MTASubwayData.update_body (st : MTASubwayData) (now : Int)
    (net : Except FetchError StationsResponse)
    (responses : List FetchResponse) : UpdateOutcome :=
  match MTASubwayData.get_stations net with
  | .error e => { state := st, fetched := true, result := .error e }
  | .ok stations =>
    let feeds := MTASubwayData.get_realtime_data responses
    let arrivals := aggregate stations st.watched_stations now feeds
    { state :=
        { st with
          data := some { stations := stations, arrivals := arrivals }
          last_update := some now }
      fetched := true
      result := .ok () }

/-- `MTASubwayData.update` as callers see it: the body under its
`@Throttle(SCAN_INTERVAL)` decorator (sensor.py line 207).  The decorator
itself is `homeassistant.util.Throttle`, not code of this repository.
Modelled from the spec: the controller is Fresh when the last refresh ran
less than `minInterval` (20 s) ago, and a Fresh call returns at once,
performing no network fetch and changing no state; a Stale call (or the
first call) runs the body, and a completed refresh is timestamped with
the `now` of that call. -/
def MTASubwayData.update (st : MTASubwayData) (now : Int)
    (net : Except FetchError StationsResponse)
    (responses : List FetchResponse) : UpdateOutcome :=
  match st.last_update with
  | some t =>
    if now - t < SCAN_INTERVAL then
      { state := st, fetched := false, result := .ok () }
    else
      MTASubwayData.update_body st now net responses
  | none => MTASubwayData.update_body st now net responses

/-- The snapshot read at sensor.py line 128:
`self._data.data["arrivals"][self._station_id]` indexes the published
defaultdict, so a missing key is created bound to `[]`.  Returns the
snapshot as it stands after the read, and the list read. -/
def MTASubwaySensor.read_arrivals (s : SnapshotData) (station_id : String) :
    SnapshotData × List ArrivalEntry :=
  let (arr2, res) := dget_default s.arrivals station_id
  ({ s with arrivals := arr2 }, res)

/-! ## Dictionary lemmas -/

theorem dlookup_dinsert {α β : Type} [DecidableEq α]
    (d : List (α × β)) (k : α) (v : β) (q : α) :
    dlookup (dinsert d k v) q = if k = q then some v else dlookup d q := by
  induction d with
  | nil =>
    by_cases h : k = q <;> simp [dinsert, dlookup, h]
  | cons p rest ih =>
    obtain ⟨k0, v0⟩ := p
    by_cases h0 : k0 = k
    · subst h0
      by_cases hq : k0 = q
      · subst hq
        simp [dinsert, dlookup]
      · simp [dinsert, dlookup, hq]
    · have hstep : dinsert ((k0, v0) :: rest) k v = (k0, v0) :: dinsert rest k v := by
        simp [dinsert, h0]
      rw [hstep]
      by_cases hq : k0 = q
      · subst hq
        have hkq : ¬k = k0 := fun h => h0 h.symm
        simp [dlookup, hkq]
      · simp [dlookup, hq, ih]

theorem dlookup_eq_none_iff {α β : Type} [DecidableEq α]
    (d : List (α × β)) (k : α) :
    dlookup d k = none ↔ ∀ p ∈ d, p.1 ≠ k := by
  induction d with
  | nil => simp [dlookup]
  | cons p rest ih =>
    obtain ⟨k0, v0⟩ := p
    by_cases h0 : k0 = k <;> simp [dlookup, h0, ih]

/-- The key list of a dict, in insertion order. -/
def dkeys {α β : Type} (d : List (α × β)) : List α := d.map Prod.fst

theorem dkeys_dinsert {α β : Type} [DecidableEq α]
    (d : List (α × β)) (k : α) (v : β) :
    dkeys (dinsert d k v) =
      if (dlookup d k).isSome then dkeys d else dkeys d ++ [k] := by
  induction d with
  | nil => simp [dinsert, dkeys, dlookup]
  | cons p rest ih =>
    obtain ⟨k0, v0⟩ := p
    by_cases h0 : k0 = k
    · subst h0
      simp [dinsert, dkeys, dlookup]
    · have hstep : dinsert ((k0, v0) :: rest) k v = (k0, v0) :: dinsert rest k v := by
        simp [dinsert, h0]
      have hl : dlookup ((k0, v0) :: rest) k = dlookup rest k := by
        simp [dlookup, h0]
      rw [hstep, hl]
      by_cases hs : (dlookup rest k).isSome
      · simp only [hs, if_true] at ih ⊢
        simp only [dkeys, List.map_cons] at ih ⊢
        rw [ih]
      · simp only [hs, if_false] at ih ⊢
        simp only [dkeys, List.map_cons] at ih ⊢
        rw [ih]
        simp

theorem keys_pairwise_dinsert {α β : Type} [DecidableEq α]
    {d : List (α × β)} (k : α) (v : β)
    (h : (dkeys d).Pairwise (· ≠ ·)) :
    (dkeys (dinsert d k v)).Pairwise (· ≠ ·) := by
  rw [dkeys_dinsert]
  by_cases hs : (dlookup d k).isSome
  · simpa [hs] using h
  · have hnone : dlookup d k = none := by
      cases hdl : dlookup d k with
      | none => rfl
      | some v2 => rw [hdl] at hs; simp at hs
    have hnotmem : k ∉ dkeys d := by
      intro hmem
      obtain ⟨p, hp, hpk⟩ := List.mem_map.mp hmem
      exact ((dlookup_eq_none_iff d k).mp hnone p hp) hpk
    rw [if_neg hs, List.pairwise_append]
    refine ⟨h, by simp, ?_⟩
    intro x hx y hy
    simp only [List.mem_singleton] at hy
    subst hy
    intro hxy
    exact hnotmem (hxy ▸ hx)

theorem dlookup_dappend (d : ArrivalsDict) (k : String) (e : ArrivalEntry)
    (q : String) :
    dlookup (dappend d k e) q =
      if k = q then some (((dlookup d q).getD []) ++ [e]) else dlookup d q := by
  induction d with
  | nil =>
    by_cases hq : k = q <;> simp [dappend, dlookup, hq]
  | cons p rest ih =>
    obtain ⟨k0, v⟩ := p
    by_cases h0 : k0 = k
    · subst h0
      by_cases hq : k0 = q
      · subst hq
        simp [dappend, dlookup]
      · simp [dappend, dlookup, hq]
    · have hstep : dappend ((k0, v) :: rest) k e = (k0, v) :: dappend rest k e := by
        simp [dappend, h0]
      rw [hstep]
      by_cases hq : k0 = q
      · subst hq
        have hkq : ¬k = k0 := fun h => h0 h.symm
        simp [dlookup, hkq]
      · simp [dlookup, hq, ih]

theorem dmem_dappend {d : ArrivalsDict} {k : String} {e : ArrivalEntry}
    {q : String} (h : dmem (dappend d k e) q = true) :
    dmem d q = true ∨ q = k := by
  by_cases hq : k = q
  · exact .inr hq.symm
  · left
    simpa [dmem, dlookup_dappend, hq] using h

/-- An entry `e` stands somewhere under key `k` of the dict. -/
def entryIn (d : ArrivalsDict) (k : String) (e : ArrivalEntry) : Prop :=
  ∃ l, dlookup d k = some l ∧ e ∈ l

theorem entryIn_dappend {d : ArrivalsDict} {k0 : String} {a : ArrivalEntry}
    {k : String} {e : ArrivalEntry} (h : entryIn (dappend d k0 a) k e) :
    entryIn d k e ∨ (k = k0 ∧ e = a) := by
  obtain ⟨l, hl, he⟩ := h
  rw [dlookup_dappend] at hl
  by_cases hq : k0 = k
  · rw [if_pos hq] at hl
    cases hl
    rcases List.mem_append.mp he with h2 | h2
    · left
      cases hdl : dlookup d k with
      | none => simp [hdl] at h2
      | some l0 =>
        exact ⟨l0, hdl, by simpa [hdl] using h2⟩
    · right
      exact ⟨hq.symm, by simpa using h2⟩
  · rw [if_neg hq] at hl
    exact .inl ⟨l, hl, he⟩

theorem dlookup_map_values {α β γ : Type} [DecidableEq α]
    (g : β → γ) (d : List (α × β)) (k : α) :
    dlookup (d.map (fun p => (p.1, g p.2))) k = (dlookup d k).map g := by
  induction d with
  | nil => simp [dlookup]
  | cons p rest ih =>
    obtain ⟨k0, v⟩ := p
    by_cases h0 : k0 = k <;> simp [dlookup, h0, ih]

/-- Pushing a property of the accumulator backwards through a left fold:
if every step either inherits the property from its input accumulator or
establishes the fixed fact `R`, so does the whole fold. -/
theorem foldl_accum {γ β : Type} (f : γ → β → γ) (A : γ → Prop) (R : Prop)
    (hf : ∀ acc b, A (f acc b) → A acc ∨ R) :
    ∀ (l : List β) (acc : γ), A (l.foldl f acc) → A acc ∨ R
  | [], _, h => .inl h
  | b :: l, acc, h =>
    match foldl_accum f A R hf l (f acc b) h with
    | .inl h2 => hf acc b h2
    | .inr h2 => .inr h2

/-! ## Aggregation invariants -/

theorem processStu_key {stations : StationDirectory} {watched : List String}
    {current_time : Int} {route_id : String} {header_timestamp : Int}
    {acc : ArrivalsDict} {stu : StopTimeUpdate} {k : String}
    (h : dmem (processStu stations watched current_time route_id
      header_timestamp acc stu) k = true) :
    dmem acc k = true ∨
      (k ∈ watched ∧ dmem stations (some (k.dropRight 1)) = true) := by
  unfold processStu at h
  by_cases hg : stu.stop_id ∈ watched ∧
      dmem stations (some (stu.stop_id.dropRight 1)) = true
  · rw [if_pos hg] at h
    rcases dmem_dappend h with h2 | h2
    · exact .inl h2
    · subst h2
      exact .inr hg
  · rw [if_neg hg] at h
    exact .inl h

theorem processEntity_key {stations : StationDirectory} {watched : List String}
    {current_time header_timestamp : Int} {acc : ArrivalsDict}
    {ent : FeedEntity} {k : String}
    (h : dmem (processEntity stations watched current_time header_timestamp
      acc ent) k = true) :
    dmem acc k = true ∨
      (k ∈ watched ∧ dmem stations (some (k.dropRight 1)) = true) := by
  unfold processEntity at h
  cases htu : ent.trip_update with
  | none =>
    rw [htu] at h
    exact .inl h
  | some tu =>
    rw [htu] at h
    exact foldl_accum _ (fun d => dmem d k = true) _
      (fun _ _ hstep => processStu_key hstep) _ _ h

theorem processFeed_key {stations : StationDirectory} {watched : List String}
    {current_time : Int} {acc : ArrivalsDict} {feed : FeedMessage} {k : String}
    (h : dmem (processFeed stations watched current_time acc feed) k = true) :
    dmem acc k = true ∨
      (k ∈ watched ∧ dmem stations (some (k.dropRight 1)) = true) := by
  unfold processFeed at h
  exact foldl_accum _ (fun d => dmem d k = true) _
    (fun _ _ hstep => processEntity_key hstep) _ _ h

theorem rawArrivals_key {stations : StationDirectory} {watched : List String}
    {current_time : Int} {feeds : List FeedMessage} {k : String}
    (h : dmem (rawArrivals stations watched current_time feeds) k = true) :
    k ∈ watched ∧ dmem stations (some (k.dropRight 1)) = true := by
  unfold rawArrivals at h
  rcases foldl_accum _ (fun d => dmem d k = true) _
      (fun _ _ hstep => processFeed_key hstep) _ _ h with h2 | h2
  · simp [dmem, dlookup] at h2
  · exact h2

theorem processStu_entry {stations : StationDirectory} {watched : List String}
    {current_time : Int} {route_id : String} {header_timestamp : Int}
    {acc : ArrivalsDict} {stu : StopTimeUpdate} {k : String} {e : ArrivalEntry}
    (h : entryIn (processStu stations watched current_time route_id
      header_timestamp acc stu) k e) :
    entryIn acc k e ∨ e.time_until = time_until e.time current_time := by
  unfold processStu at h
  by_cases hg : stu.stop_id ∈ watched ∧
      dmem stations (some (stu.stop_id.dropRight 1)) = true
  · rw [if_pos hg] at h
    rcases entryIn_dappend h with h2 | h2
    · exact .inl h2
    · right
      rw [h2.2]
  · rw [if_neg hg] at h
    exact .inl h

theorem processEntity_entry {stations : StationDirectory} {watched : List String}
    {current_time header_timestamp : Int} {acc : ArrivalsDict}
    {ent : FeedEntity} {k : String} {e : ArrivalEntry}
    (h : entryIn (processEntity stations watched current_time header_timestamp
      acc ent) k e) :
    entryIn acc k e ∨ e.time_until = time_until e.time current_time := by
  unfold processEntity at h
  cases htu : ent.trip_update with
  | none =>
    rw [htu] at h
    exact .inl h
  | some tu =>
    rw [htu] at h
    exact foldl_accum _ (fun d => entryIn d k e) _
      (fun _ _ hstep => processStu_entry hstep) _ _ h

theorem processFeed_entry {stations : StationDirectory} {watched : List String}
    {current_time : Int} {acc : ArrivalsDict} {feed : FeedMessage} {k : String}
    {e : ArrivalEntry}
    (h : entryIn (processFeed stations watched current_time acc feed) k e) :
    entryIn acc k e ∨ e.time_until = time_until e.time current_time := by
  unfold processFeed at h
  exact foldl_accum _ (fun d => entryIn d k e) _
    (fun _ _ hstep => processEntity_entry hstep) _ _ h

theorem rawArrivals_entry {stations : StationDirectory} {watched : List String}
    {current_time : Int} {feeds : List FeedMessage} {k : String}
    {e : ArrivalEntry}
    (h : entryIn (rawArrivals stations watched current_time feeds) k e) :
    e.time_until = time_until e.time current_time := by
  unfold rawArrivals at h
  rcases foldl_accum _ (fun d => entryIn d k e) _
      (fun _ _ hstep => processFeed_entry hstep) _ _ h with h2 | h2
  · obtain ⟨l, hl, _⟩ := h2
    simp [dlookup] at hl
  · exact h2

/-! ## Stability of the per-key sort -/

theorem filter_time_orderedInsert (a : ArrivalEntry) (l : List ArrivalEntry)
    (t : Int) :
    (List.orderedInsert byTime a l).filter (fun e => decide (e.time = t)) =
      if a.time = t then
        a :: l.filter (fun e => decide (e.time = t))
      else
        l.filter (fun e => decide (e.time = t)) := by
  induction l with
  | nil => by_cases h : a.time = t <;> simp [List.orderedInsert, h]
  | cons b l ih =>
    by_cases hab : byTime a b
    · simp only [List.orderedInsert, if_pos hab]
      by_cases h : a.time = t <;> simp [List.filter_cons, h]
    · simp only [List.orderedInsert, if_neg hab]
      by_cases hat : a.time = t
      · have hbt : ¬b.time = t := by
          intro hb
          exact hab (le_of_eq (hat.trans hb.symm))
      
        simp [List.filter_cons, hbt, ih, hat]
      · simp [List.filter_cons, ih, hat]

theorem filter_time_insertionSort (l : List ArrivalEntry) (t : Int) :
    (List.insertionSort byTime l).filter (fun e => decide (e.time = t)) =
      l.filter (fun e => decide (e.time = t)) := by
  induction l with
  | nil => rfl
  | cons a l ih =>
    simp only [List.insertionSort]
    rw [filter_time_orderedInsert]
    by_cases h : a.time = t <;> simp [List.filter_cons, h, ih]

/-! ## Reduction of a successful refresh -/

theorem update_eq_fresh (st : MTASubwayData) (now : Int)
    (net : Except FetchError StationsResponse) (resp : List FetchResponse)
    (t : Int) (hlu : st.last_update = some t)
    (hfresh : now - t < SCAN_INTERVAL) :
    MTASubwayData.update st now net resp =
      { state := st, fetched := false, result := .ok () } := by
  unfold MTASubwayData.update
  rw [hlu]
  simp [hfresh]

theorem update_eq_body_some (st : MTASubwayData) (now : Int)
    (net : Except FetchError StationsResponse) (resp : List FetchResponse)
    (t : Int) (hlu : st.last_update = some t)
    (hstale : ¬now - t < SCAN_INTERVAL) :
    MTASubwayData.update st now net resp =
      MTASubwayData.update_body st now net resp := by
  unfold MTASubwayData.update
  rw [hlu]
  simp [hstale]

theorem update_eq_body_none (st : MTASubwayData) (now : Int)
    (net : Except FetchError StationsResponse) (resp : List FetchResponse)
    (hlu : st.last_update = none) :
    MTASubwayData.update st now net resp =
      MTASubwayData.update_body st now net resp := by
  unfold MTASubwayData.update
  rw [hlu]

theorem update_body_eq_error (st : MTASubwayData) (now : Int)
    (net : Except FetchError StationsResponse) (resp : List FetchResponse)
    (e : LoadError) (hgs : MTASubwayData.get_stations net = .error e) :
    MTASubwayData.update_body st now net resp =
      { state := st, fetched := true, result := .error e } := by
  unfold MTASubwayData.update_body
  rw [hgs]

theorem update_body_eq_ok (st : MTASubwayData) (now : Int)
    (net : Except FetchError StationsResponse) (resp : List FetchResponse)
    (d : StationDirectory) (hgs : MTASubwayData.get_stations net = .ok d) :
    MTASubwayData.update_body st now net resp =
      { state :=
          { st with
            data := some
              { stations := d
                arrivals := aggregate d st.watched_stations now
                  (MTASubwayData.get_realtime_data resp) }
            last_update := some now }
        fetched := true
        result := .ok () } := by
  unfold MTASubwayData.update_body
  rw [hgs]

/-- Any call to the throttled `update` that actually ran the pipeline
(`fetched = true`) and succeeded published exactly the station dict it
loaded together with the aggregation over the decoded feeds. -/
theorem update_run_success (st : MTASubwayData) (now : Int)
    (net : Except FetchError StationsResponse) (responses : List FetchResponse)
    (s : SnapshotData)
    (hrun : (MTASubwayData.update st now net responses).fetched = true)
    (hok : (MTASubwayData.update st now net responses).result = .ok ())
    (hdata : (MTASubwayData.update st now net responses).state.data = some s) :
    MTASubwayData.get_stations net = .ok s.stations ∧
      s.arrivals = aggregate s.stations st.watched_stations now
        (MTASubwayData.get_realtime_data responses) := by
  have hbody :
      (MTASubwayData.update st now net responses) =
        MTASubwayData.update_body st now net responses := by
    cases hlu : st.last_update with
    | none => exact update_eq_body_none st now net responses hlu
    | some t =>
      by_cases hfresh : now - t < SCAN_INTERVAL
      · rw [update_eq_fresh st now net responses t hlu hfresh] at hrun
        simp at hrun
      · exact update_eq_body_some st now net responses t hlu hfresh
  rw [hbody] at hok hdata
  cases hgs : MTASubwayData.get_stations net with
  | error e =>
    rw [update_body_eq_error st now net responses e hgs] at hok
    simp at hok
  | ok d =>
    rw [update_body_eq_ok st now net responses d hgs] at hdata
    simp only [Option.some.injEq] at hdata
    subst hdata
    exact ⟨rfl, rfl⟩

/-! ## Station loader lemmas -/

theorem fieldIndex_eq_none_iff (c : String) (header : List String) :
    fieldIndex c header = none ↔ c ∉ header := by
  induction header with
  | nil => simp [fieldIndex]
  | cons c0 rest ih =>
    by_cases h : c0 = c
    · subst h
      simp [fieldIndex]
    · have h2 : ¬c = c0 := fun hc => h hc.symm
      simp [fieldIndex, h, h2, Option.map_eq_none', ih]

theorem dictReaderGet_ok_of_mem (header row : List String) (c : String)
    (hc : c ∈ header) : ∃ v, dictReaderGet header row c = .ok v := by
  unfold dictReaderGet
  cases hf : fieldIndex c header with
  | none => exact absurd ((fieldIndex_eq_none_iff c header).mp hf) (by simp [hc])
  | some i => exact ⟨row.get? i, rfl⟩

theorem dictReaderGet_ok_mem {header row : List String} {c : String}
    {v : Option String} (h : dictReaderGet header row c = .ok v) :
    c ∈ header := by
  unfold dictReaderGet at h
  cases hf : fieldIndex c header with
  | none =>
    rw [hf] at h
    simp at h
  | some i =>
    by_contra hmem
    rw [(fieldIndex_eq_none_iff c header).mpr hmem] at hf
    simp at hf

theorem dictReaderGet_error_shape {header row : List String} {c : String}
    {e : LoadError} (h : dictReaderGet header row c = .error e) :
    e = .keyError c ∧ c ∉ header := by
  unfold dictReaderGet at h
  cases hf : fieldIndex c header with
  | none =>
    rw [hf] at h
    cases h
    exact ⟨rfl, (fieldIndex_eq_none_iff c header).mp hf⟩
  | some i =>
    rw [hf] at h
    simp at h

theorem parseRow_ok_of_cols (header row : List String)
    (hcols : ∀ c ∈ requiredColumns, c ∈ header) :
    ∃ v, parseRow header row = .ok v := by
  obtain ⟨v1, h1⟩ := dictReaderGet_ok_of_mem header row "Stop Name"
    (hcols _ (by simp [requiredColumns]))
  obtain ⟨v2, h2⟩ := dictReaderGet_ok_of_mem header row "South Direction Label"
    (hcols _ (by simp [requiredColumns]))
  obtain ⟨v3, h3⟩ := dictReaderGet_ok_of_mem header row "North Direction Label"
    (hcols _ (by simp [requiredColumns]))
  obtain ⟨v4, h4⟩ := dictReaderGet_ok_of_mem header row "Complex ID"
    (hcols _ (by simp [requiredColumns]))
  obtain ⟨v5, h5⟩ := dictReaderGet_ok_of_mem header row "GTFS Stop ID"
    (hcols _ (by simp [requiredColumns]))
  refine ⟨(v5, StationRecord.mk v1 v2 v3 v4), ?_⟩
  unfold parseRow
  rw [h1, h2, h3, h4, h5]

theorem parseRow_ok_cols {header row : List String}
    {v : Option String × StationRecord} (h : parseRow header row = .ok v) :
    ∀ c ∈ requiredColumns, c ∈ header := by
  unfold parseRow at h
  cases h1 : dictReaderGet header row "Stop Name" with
  | error e => rw [h1] at h; simp at h
  | ok v1 =>
  rw [h1] at h
  cases h2 : dictReaderGet header row "South Direction Label" with
  | error e => rw [h2] at h; simp at h
  | ok v2 =>
  rw [h2] at h
  cases h3 : dictReaderGet header row "North Direction Label" with
  | error e => rw [h3] at h; simp at h
  | ok v3 =>
  rw [h3] at h
  cases h4 : dictReaderGet header row "Complex ID" with
  | error e => rw [h4] at h; simp at h
  | ok v4 =>
  rw [h4] at h
  cases h5 : dictReaderGet header row "GTFS Stop ID" with
  | error e => rw [h5] at h; simp at h
  | ok v5 =>
  intro c hc
  simp only [requiredColumns, List.mem_cons, List.mem_singleton] at hc
  rcases hc with rfl | rfl | rfl | rfl | rfl | hc
  · exact dictReaderGet_ok_mem h1
  · exact dictReaderGet_ok_mem h2
  · exact dictReaderGet_ok_mem h3
  · exact dictReaderGet_ok_mem h4
  · exact dictReaderGet_ok_mem h5
  · simp at hc

theorem parseRow_error_shape {header row : List String} {e : LoadError}
    (h : parseRow header row = .error e) :
    ∃ col, col ∈ requiredColumns ∧ col ∉ header ∧ e = .keyError col := by
  unfold parseRow at h
  cases h1 : dictReaderGet header row "Stop Name" with
  | error e1 =>
    rw [h1] at h
    cases h
    obtain ⟨he, hmem⟩ := dictReaderGet_error_shape h1
    exact ⟨"Stop Name", by simp [requiredColumns], hmem, he⟩
  | ok v1 =>
  rw [h1] at h
  cases h2 : dictReaderGet header row "South Direction Label" with
  | error e2 =>
    rw [h2] at h
    cases h
    obtain ⟨he, hmem⟩ := dictReaderGet_error_shape h2
    exact ⟨"South Direction Label", by simp [requiredColumns], hmem, he⟩
  | ok v2 =>
  rw [h2] at h
  cases h3 : dictReaderGet header row "North Direction Label" with
  | error e3 =>
    rw [h3] at h
    cases h
    obtain ⟨he, hmem⟩ := dictReaderGet_error_shape h3
    exact ⟨"North Direction Label", by simp [requiredColumns], hmem, he⟩
  | ok v3 =>
  rw [h3] at h
  cases h4 : dictReaderGet header row "Complex ID" with
  | error e4 =>
    rw [h4] at h
    cases h
    obtain ⟨he, hmem⟩ := dictReaderGet_error_shape h4
    exact ⟨"Complex ID", by simp [requiredColumns], hmem, he⟩
  | ok v4 =>
  rw [h4] at h
  cases h5 : dictReaderGet header row "GTFS Stop ID" with
  | error e5 =>
    rw [h5] at h
    cases h
    obtain ⟨he, hmem⟩ := dictReaderGet_error_shape h5
    exact ⟨"GTFS Stop ID", by simp [requiredColumns], hmem, he⟩
  | ok v5 =>
  rw [h5] at h
  simp at h

/-- The rows of the response that parse, as key-record pairs, in row
order. -/
def parsedRows (header : List String) (rows : List (List String)) :
    List (Option String × StationRecord) :=
  rows.filterMap (fun row => (parseRow header row).toOption)

/-- The record carried by the last entry of the list whose key is `k`,
if any. -/
def lastValue (k : Option String) :
    List (Option String × StationRecord) → Option StationRecord
  | [] => none
  | (k0, v) :: rest =>
    match lastValue k rest with
    | some v2 => some v2
    | none => if k0 = k then some v else none

theorem buildStations_ok_rows (header : List String) :
    ∀ (rows : List (List String)) (acc d : StationDirectory),
      buildStations header rows acc = .ok d →
      ∀ row ∈ rows, ∃ v, parseRow header row = .ok v := by
  intro rows
  induction rows with
  | nil => simp
  | cons row0 rest ih =>
    intro acc d h row hrow
    unfold buildStations at h
    cases hp : parseRow header row0 with
    | error e =>
      rw [hp] at h
      simp at h
    | ok v =>
      obtain ⟨k0, sr0⟩ := v
      rw [hp] at h
      rcases List.mem_cons.mp hrow with rfl | hmem
      · exact ⟨_, hp⟩
      · exact ih (dinsert acc k0 sr0) d h row hmem

theorem buildStations_ok_of_cols (header : List String)
    (hcols : ∀ c ∈ requiredColumns, c ∈ header) :
    ∀ (rows : List (List String)) (acc : StationDirectory),
      ∃ d, buildStations header rows acc = .ok d := by
  intro rows
  induction rows with
  | nil => exact fun acc => ⟨acc, rfl⟩
  | cons row rest ih =>
    intro acc
    obtain ⟨v, hv⟩ := parseRow_ok_of_cols header row hcols
    obtain ⟨k0, sr0⟩ := v
    obtain ⟨d, hd⟩ := ih (dinsert acc k0 sr0)
    refine ⟨d, ?_⟩
    unfold buildStations
    rw [hv]
    exact hd

theorem buildStations_lookup (header : List String) :
    ∀ (rows : List (List String)) (acc d : StationDirectory),
      buildStations header rows acc = .ok d →
      ∀ k, dlookup d k =
        (lastValue k (parsedRows header rows)).elim (dlookup acc k) some := by
  intro rows
  induction rows with
  | nil =>
    intro acc d h k
    unfold buildStations at h
    cases h
    simp [parsedRows, lastValue]
  | cons row rest ih =>
    intro acc d h k
    unfold buildStations at h
    cases hp : parseRow header row with
    | error e =>
      rw [hp] at h
      simp at h
    | ok v =>
      obtain ⟨k0, sr0⟩ := v
      rw [hp] at h
      have hrec := ih (dinsert acc k0 sr0) d h k
      have hpr : parsedRows header (row :: rest) =
          (k0, sr0) :: parsedRows header rest := by
        simp [parsedRows, hp, Except.toOption]
      rw [hpr, hrec]
      cases hlv : lastValue k (parsedRows header rest) with
      | some v2 => simp [lastValue, hlv]
      | none =>
        simp only [lastValue, hlv, Option.elim]
        rw [dlookup_dinsert]
        by_cases hk : k0 = k
        · simp [hk]
        · simp [hk]

theorem buildStations_keys (header : List String) :
    ∀ (rows : List (List String)) (acc d : StationDirectory),
      buildStations header rows acc = .ok d →
      (dkeys acc).Pairwise (· ≠ ·) → (dkeys d).Pairwise (· ≠ ·) := by
  intro rows
  induction rows with
  | nil =>
    intro acc d h hacc
    unfold buildStations at h
    cases h
    exact hacc
  | cons row rest ih =>
    intro acc d h hacc
    unfold buildStations at h
    cases hp : parseRow header row with
    | error e =>
      rw [hp] at h
      simp at h
    | ok v =>
      obtain ⟨k0, sr0⟩ := v
      rw [hp] at h
      exact ih (dinsert acc k0 sr0) d h (keys_pairwise_dinsert k0 sr0 hacc)

/-! ## Concrete fixtures used by witnesses -/

/-- A well-formed Stations.csv response holding the spec scenario row. -/
def respVanC : StationsResponse :=
  ⟨200, requiredColumns,
    [["Van Cortlandt Park", "Downtown", "Uptown", "293", "101"]]⟩

/-- The record parsed from the scenario row. -/
def recVanC : StationRecord :=
  ⟨some "Van Cortlandt Park", some "Downtown", some "Uptown", some "293"⟩

/-- The station dict loaded from `respVanC`. -/
def dirVanC : StationDirectory := [(some "101", recVanC)]

/-- A feed with one trip on route 1 arriving at stop `101N` at 1090. -/
def feedN : FeedMessage := ⟨1000, [⟨some ⟨"1", [⟨"101N", 1090⟩]⟩⟩]⟩

/-- A feed whose only stop-time update is for the unwatched `101S`. -/
def feedS : FeedMessage := ⟨1000, [⟨some ⟨"1", [⟨"101S", 1090⟩]⟩⟩]⟩

/-- A feed whose `101N` arrival lies in the past (time 910). -/
def feedPast : FeedMessage := ⟨1000, [⟨some ⟨"1", [⟨"101N", 910⟩]⟩⟩]⟩

/-- A feed emitting two `101N` arrivals out of time order (1090, 1030). -/
def feedTwo : FeedMessage :=
  ⟨1000, [⟨some ⟨"1", [⟨"101N", 1090⟩, ⟨"101N", 1030⟩]⟩⟩]⟩

/-- A fresh data holder watching `101N` only. -/
def stInit : MTASubwayData := ⟨["101N"], none, none⟩

/-! ## Claims -/

/-- C1: for every stopId key present in the arrivals mapping of a
successfully published snapshot (and hence for every entry under it),
stopId is in the watched set of the caller and the base id obtained by
removing its final character is a key of the station directory built in
the same refresh. -/
theorem mta_c1_arrival_keys_filtered (st : MTASubwayData) (now : Int)
    (net : Except FetchError StationsResponse) (responses : List FetchResponse)
    (s : SnapshotData) (k : String) (l : List ArrivalEntry)
    (hrun : (MTASubwayData.update st now net responses).fetched = true)
    (hok : (MTASubwayData.update st now net responses).result = .ok ())
    (hdata : (MTASubwayData.update st now net responses).state.data = some s)
    (hk : dlookup s.arrivals k = some l) :
    k ∈ st.watched_stations ∧ dmem s.stations (some (k.dropRight 1)) = true := by
  obtain ⟨hgs, harr⟩ := update_run_success st now net responses s hrun hok hdata
  rw [harr] at hk
  unfold aggregate at hk
  rw [dlookup_map_values] at hk
  cases hraw : dlookup (rawArrivals s.stations st.watched_stations now
      (MTASubwayData.get_realtime_data responses)) k with
  | none =>
    rw [hraw] at hk
    simp at hk
  | some rawl =>
    exact @rawArrivals_key s.stations st.watched_stations now
      (MTASubwayData.get_realtime_data responses) k (by simp [dmem, hraw])

/-- Witness for C1 at the spec scenario input. -/
theorem mta_c1_witness :
    "101N" ∈ stInit.watched_stations ∧
      dmem (SnapshotData.mk dirVanC
        [("101N", [ArrivalEntry.mk 1090 "1" 1000 2])]).stations
        (some ("101N".dropRight 1)) = true :=
  mta_c1_arrival_keys_filtered stInit 1000 (.ok respVanC) [⟨200, some feedN⟩]
    (SnapshotData.mk dirVanC [("101N", [ArrivalEntry.mk 1090 "1" 1000 2])])
    "101N" [ArrivalEntry.mk 1090 "1" 1000 2]
    (by decide) (by decide) (by decide) (by decide)

/-- C2: every value of the published arrivals mapping is sorted ascending
by the `time` field, and entries with equal `time` keep the order in which
they were emitted during aggregation: for every time value, filtering the
published list and filtering the raw (emission-ordered) group give the
same list. -/
theorem mta_c2_sorted_stable (st : MTASubwayData) (now : Int)
    (net : Except FetchError StationsResponse) (responses : List FetchResponse)
    (s : SnapshotData) (k : String) (l : List ArrivalEntry)
    (hrun : (MTASubwayData.update st now net responses).fetched = true)
    (hok : (MTASubwayData.update st now net responses).result = .ok ())
    (hdata : (MTASubwayData.update st now net responses).state.data = some s)
    (hk : dlookup s.arrivals k = some l) :
    l.Sorted byTime ∧
      ∃ rawl, dlookup (rawArrivals s.stations st.watched_stations now
          (MTASubwayData.get_realtime_data responses)) k = some rawl ∧
        l = List.insertionSort byTime rawl ∧
        ∀ t : Int, l.filter (fun e => decide (e.time = t)) =
          rawl.filter (fun e => decide (e.time = t)) := by
  obtain ⟨hgs, harr⟩ := update_run_success st now net responses s hrun hok hdata
  rw [harr] at hk
  unfold aggregate at hk
  rw [dlookup_map_values] at hk
  cases hraw : dlookup (rawArrivals s.stations st.watched_stations now
      (MTASubwayData.get_realtime_data responses)) k with
  | none =>
    rw [hraw] at hk
    simp at hk
  | some rawl =>
    rw [hraw] at hk
    simp only [Option.map_some'] at hk
    cases hk
    exact ⟨List.sorted_insertionSort byTime rawl, rawl, rfl, rfl,
      fun t => filter_time_insertionSort rawl t⟩

/-- Witness for C2 on a feed emitting 1090 before 1030: the published
list is re-ordered ascending. -/
theorem mta_c2_witness :
    ([ArrivalEntry.mk 1030 "1" 1000 1, ArrivalEntry.mk 1090 "1" 1000 2] :
        List ArrivalEntry).Sorted byTime ∧
      ∃ rawl, dlookup (rawArrivals dirVanC stInit.watched_stations 1000
          (MTASubwayData.get_realtime_data [⟨200, some feedTwo⟩])) "101N" =
            some rawl ∧
        [ArrivalEntry.mk 1030 "1" 1000 1, ArrivalEntry.mk 1090 "1" 1000 2] =
          List.insertionSort byTime rawl ∧
        ∀ t : Int,
          ([ArrivalEntry.mk 1030 "1" 1000 1,
            ArrivalEntry.mk 1090 "1" 1000 2].filter
              (fun e => decide (e.time = t))) =
          rawl.filter (fun e => decide (e.time = t)) :=
  mta_c2_sorted_stable stInit 1000 (.ok respVanC) [⟨200, some feedTwo⟩]
    (SnapshotData.mk dirVanC
      [("101N", [ArrivalEntry.mk 1030 "1" 1000 1,
                 ArrivalEntry.mk 1090 "1" 1000 2])])
    "101N" [ArrivalEntry.mk 1030 "1" 1000 1, ArrivalEntry.mk 1090 "1" 1000 2]
    (by decide) (by decide) (by decide) (by decide)

/-- C3: every entry of a successfully published snapshot carries
`time_until` equal to the exact integer ceiling of
`(arrivalEpochSeconds - now) / 60`, where `now` is the single timestamp
captured at the start of that aggregation; nothing prevents the value
from being negative when the arrival lies in the past. -/
theorem mta_c3_time_until_is_ceil (st : MTASubwayData) (now : Int)
    (net : Except FetchError StationsResponse) (responses : List FetchResponse)
    (s : SnapshotData) (k : String) (l : List ArrivalEntry) (e : ArrivalEntry)
    (hrun : (MTASubwayData.update st now net responses).fetched = true)
    (hok : (MTASubwayData.update st now net responses).result = .ok ())
    (hdata : (MTASubwayData.update st now net responses).state.data = some s)
    (hk : dlookup s.arrivals k = some l) (he : e ∈ l) :
    e.time_until = Int.ceil (((e.time : ℚ) - (now : ℚ)) / 60) := by
  obtain ⟨hgs, harr⟩ := update_run_success st now net responses s hrun hok hdata
  rw [harr] at hk
  unfold aggregate at hk
  rw [dlookup_map_values] at hk
  cases hraw : dlookup (rawArrivals s.stations st.watched_stations now
      (MTASubwayData.get_realtime_data responses)) k with
  | none =>
    rw [hraw] at hk
    simp at hk
  | some rawl =>
    rw [hraw] at hk
    simp only [Option.map_some'] at hk
    cases hk
    have hmem : e ∈ rawl := by
      have := List.perm_insertionSort byTime rawl
      exact this.mem_iff.mp he
    have hq : e.time_until = time_until e.time now :=
      rawArrivals_entry ⟨rawl, hraw, hmem⟩
    rw [hq, time_until_eq_ceil]

/-- Witness for C3 on a past arrival (time 910 at now 1000): the
published countdown is the ceiling, here the negative value -1. -/
theorem mta_c3_witness :
    (ArrivalEntry.mk 910 "1" 1000 (-1)).time_until =
      Int.ceil ((((ArrivalEntry.mk 910 "1" 1000 (-1)).time : ℚ) -
        ((1000 : Int) : ℚ)) / 60) ∧
    (ArrivalEntry.mk 910 "1" 1000 (-1)).time_until < 0 :=
  ⟨mta_c3_time_until_is_ceil stInit 1000 (.ok respVanC) [⟨200, some feedPast⟩]
    (SnapshotData.mk dirVanC [("101N", [ArrivalEntry.mk 910 "1" 1000 (-1)])])
    "101N" [ArrivalEntry.mk 910 "1" 1000 (-1)] (ArrivalEntry.mk 910 "1" 1000 (-1))
    (by decide) (by decide) (by decide) (by decide) (by decide),
   by decide⟩

/-- C4: a response with a non-success status code or an undecodable body
is excluded without affecting the decoding of the other responses; an
all-failing response list decodes to the empty feed set; and the refresh
still returns normally (no exception) and publishes a snapshot built from
whatever feeds decoded, for any response list. -/
theorem mta_c4_feed_failures_isolated (xs ys : List FetchResponse)
    (r : FetchResponse) (hbad : r.status_code ≠ 200 ∨ r.parsed = none) :
    MTASubwayData.get_realtime_data (xs ++ r :: ys) =
      MTASubwayData.get_realtime_data (xs ++ ys) ∧
    (∀ rs : List FetchResponse,
      (∀ q ∈ rs, q.status_code ≠ 200 ∨ q.parsed = none) →
      MTASubwayData.get_realtime_data rs = []) ∧
    (∀ (st : MTASubwayData) (now : Int)
      (net : Except FetchError StationsResponse) (d : StationDirectory)
      (resp : List FetchResponse),
      st.last_update = none →
      MTASubwayData.get_stations net = .ok d →
      (MTASubwayData.update st now net resp).result = .ok () ∧
      (MTASubwayData.update st now net resp).state.data =
        some { stations := d
               arrivals := aggregate d st.watched_stations now
                 (MTASubwayData.get_realtime_data resp) }) := by
  have hnone : ∀ q : FetchResponse, q.status_code ≠ 200 ∨ q.parsed = none →
      (if q.status_code = 200 then q.parsed else none) = none := by
    intro q hq
    rcases hq with h | h
    · simp [h]
    · by_cases h2 : q.status_code = 200 <;> simp [h, h2]
  refine ⟨?_, ?_, ?_⟩
  · unfold MTASubwayData.get_realtime_data
    rw [List.filterMap_append, List.filterMap_append, List.filterMap_cons,
      hnone r hbad]
  · intro rs hall
    induction rs with
    | nil => rfl
    | cons q rest ih =>
      unfold MTASubwayData.get_realtime_data
      rw [List.filterMap_cons, hnone q (hall q (List.mem_cons_self q rest))]
      exact ih (fun q2 hq2 => hall q2 (List.mem_cons_of_mem q hq2))
  · intro st now net d resp hlu hgs
    rw [update_eq_body_none st now net resp hlu,
      update_body_eq_ok st now net resp d hgs]
    exact ⟨rfl, rfl⟩

/-- Witness for C4: a 503 response and an undecodable 200 response are
dropped, an all-failing list yields no feeds, and a refresh fed only a
failing response still succeeds. -/
theorem mta_c4_witness :
    MTASubwayData.get_realtime_data
        ([FetchResponse.mk 200 (some feedN)] ++
          FetchResponse.mk 503 (some feedS) :: []) =
      MTASubwayData.get_realtime_data ([FetchResponse.mk 200 (some feedN)] ++ []) ∧
    MTASubwayData.get_realtime_data
      [FetchResponse.mk 503 (some feedN), FetchResponse.mk 200 none] = [] ∧
    (MTASubwayData.update stInit 1000 (.ok respVanC)
      [FetchResponse.mk 503 (some feedN)]).result = .ok () :=
  ⟨(mta_c4_feed_failures_isolated [FetchResponse.mk 200 (some feedN)] []
      (FetchResponse.mk 503 (some feedS)) (by decide)).1,
   (mta_c4_feed_failures_isolated [FetchResponse.mk 200 (some feedN)] []
      (FetchResponse.mk 503 (some feedS)) (by decide)).2.1
     [FetchResponse.mk 503 (some feedN), FetchResponse.mk 200 none]
     (by decide),
   ((mta_c4_feed_failures_isolated [FetchResponse.mk 200 (some feedN)] []
      (FetchResponse.mk 503 (some feedS)) (by decide)).2.2 stInit 1000
     (.ok respVanC) dirVanC [FetchResponse.mk 503 (some feedN)]
     (by decide) (by decide)).1⟩

/-- C5 counterexample: a completed response with status 404 whose body is
an empty table (so every required column is missing) makes the loader
return an empty directory successfully — it fails with neither a fetch
error (the status code is never inspected) nor a parse error (no row is
ever read), refuting the claim at this concrete input. -/
theorem mta_c5_counterexample :
    MTASubwayData.get_stations (.ok (StationsResponse.mk 404 [] [])) =
      .ok [] ∧
    (404 : Nat) ≠ 200 ∧ "Stop Name" ∈ requiredColumns ∧
    "Stop Name" ∉ (StationsResponse.mk 404 [] []).header := by decide

/-- C5 amended: the loader fails with a fetch error exactly when the
network request does not complete (a completed non-success status is
parsed like any other body); it fails with a `KeyError` on a required
column whenever the table has at least one data row and its header lacks
some required column; and it never returns a partial directory — on
success every row parsed. -/
theorem mta_c5_fetch_parse_whole :
    (∀ e : FetchError,
      MTASubwayData.get_stations (.error e) = .error (.fetch e)) ∧
    (∀ resp : StationsResponse, resp.rows ≠ [] →
      (∃ c, c ∈ requiredColumns ∧ c ∉ resp.header) →
      ∃ col, MTASubwayData.get_stations (.ok resp) = .error (.keyError col)) ∧
    (∀ (resp : StationsResponse) (d : StationDirectory),
      MTASubwayData.get_stations (.ok resp) = .ok d →
      ∀ row ∈ resp.rows, ∃ v, parseRow resp.header row = .ok v) := by
  refine ⟨fun e => rfl, ?_, ?_⟩
  · intro resp hrows hc
    obtain ⟨c, hcr, hch⟩ := hc
    cases hr : resp.rows with
    | nil => exact absurd hr hrows
    | cons row rest =>
      cases hp : parseRow resp.header row with
      | error e =>
        obtain ⟨col, _, _, he⟩ := parseRow_error_shape hp
        refine ⟨col, ?_⟩
        show buildStations resp.header resp.rows [] = .error (.keyError col)
        rw [hr]
        unfold buildStations
        rw [hp, he]
      | ok v =>
        exact absurd (parseRow_ok_cols hp c hcr) hch
  · intro resp d h row hrow
    exact buildStations_ok_rows resp.header resp.rows [] d h row hrow

/-- Witness for C5 amended: a network failure propagates as a fetch
error; a one-row table missing its direction columns raises a KeyError;
and the scenario row parses under the full header. -/
theorem mta_c5_witness :
    MTASubwayData.get_stations (.error (FetchError.mk "connection refused")) =
      .error (.fetch (FetchError.mk "connection refused")) ∧
    (∃ col, MTASubwayData.get_stations
      (.ok (StationsResponse.mk 200 ["Stop Name"] [["x"]])) =
        .error (.keyError col)) ∧
    (∃ v, parseRow respVanC.header
      ["Van Cortlandt Park", "Downtown", "Uptown", "293", "101"] = .ok v) :=
  ⟨mta_c5_fetch_parse_whole.1 (FetchError.mk "connection refused"),
   mta_c5_fetch_parse_whole.2.1
     (StationsResponse.mk 200 ["Stop Name"] [["x"]]) (by decide)
     ⟨"South Direction Label", by decide, by decide⟩,
   mta_c5_fetch_parse_whole.2.2 respVanC dirVanC (by decide)
     ["Van Cortlandt Park", "Downtown", "Uptown", "293", "101"] (by decide)⟩

/-- C6: when the station directory load raises, the refresh that ran it
fails as a whole — the object state (in particular the published `data`
field, possibly still absent) is exactly what it was before the call, and
the error propagates to the caller of `update`. -/
theorem mta_c6_directory_failure_atomic (st : MTASubwayData) (now : Int)
    (net : Except FetchError StationsResponse) (resp : List FetchResponse)
    (e : LoadError)
    (hstale : ∀ t, st.last_update = some t → ¬now - t < SCAN_INTERVAL)
    (herr : MTASubwayData.get_stations net = .error e) :
    (MTASubwayData.update st now net resp).state = st ∧
    (MTASubwayData.update st now net resp).result = .error e := by
  have hbody : MTASubwayData.update st now net resp =
      MTASubwayData.update_body st now net resp := by
    cases hlu : st.last_update with
    | none => exact update_eq_body_none st now net resp hlu
    | some t => exact update_eq_body_some st now net resp t hlu (hstale t hlu)
  rw [hbody, update_body_eq_error st now net resp e herr]
  exact ⟨rfl, rfl⟩

/-- Witness for C6: a stale holder with a published snapshot keeps it,
and the network failure surfaces. -/
theorem mta_c6_witness :
    (MTASubwayData.update
      (MTASubwayData.mk ["101N"] (some (SnapshotData.mk dirVanC [])) (some 0))
      100 (.error (FetchError.mk "down")) []).state =
      MTASubwayData.mk ["101N"] (some (SnapshotData.mk dirVanC [])) (some 0) ∧
    (MTASubwayData.update
      (MTASubwayData.mk ["101N"] (some (SnapshotData.mk dirVanC [])) (some 0))
      100 (.error (FetchError.mk "down")) []).result =
      .error (.fetch (FetchError.mk "down")) :=
  mta_c6_directory_failure_atomic
    (MTASubwayData.mk ["101N"] (some (SnapshotData.mk dirVanC [])) (some 0))
    100 (.error (FetchError.mk "down")) [] (.fetch (FetchError.mk "down"))
    (fun t ht => by cases ht; decide) (by decide)

/-- C7: after a call that actually refreshed and succeeded, a second call
less than `SCAN_INTERVAL` (20 s) later performs no station or feed fetch
and returns with the state — including the published snapshot —
bit-identical to what the first call produced.  The throttle gate is
modelled from the spec (the decorator is `homeassistant.util.Throttle`,
outside this repository). -/
theorem mta_c7_throttled_second_call (st : MTASubwayData) (t0 t1 : Int)
    (net0 net1 : Except FetchError StationsResponse)
    (resp0 resp1 : List FetchResponse)
    (hrun : (MTASubwayData.update st t0 net0 resp0).fetched = true)
    (hok : (MTASubwayData.update st t0 net0 resp0).result = .ok ())
    (hlt : t1 - t0 < SCAN_INTERVAL) :
    MTASubwayData.update (MTASubwayData.update st t0 net0 resp0).state t1
        net1 resp1 =
      { state := (MTASubwayData.update st t0 net0 resp0).state
        fetched := false
        result := .ok () } := by
  have hbody : MTASubwayData.update st t0 net0 resp0 =
      MTASubwayData.update_body st t0 net0 resp0 := by
    cases hlu : st.last_update with
    | none => exact update_eq_body_none st t0 net0 resp0 hlu
    | some t =>
      by_cases hfresh : t0 - t < SCAN_INTERVAL
      · rw [update_eq_fresh st t0 net0 resp0 t hlu hfresh] at hrun
        simp at hrun
      · exact update_eq_body_some st t0 net0 resp0 t hlu hfresh
  have hlu1 : (MTASubwayData.update st t0 net0 resp0).state.last_update =
      some t0 := by
    rw [hbody]
    cases hgs : MTASubwayData.get_stations net0 with
    | error e =>
      rw [hbody] at hok
      rw [update_body_eq_error st t0 net0 resp0 e hgs] at hok
      simp at hok
    | ok d =>
      rw [update_body_eq_ok st t0 net0 resp0 d hgs]
  exact update_eq_fresh _ t1 net1 resp1 t0 hlu1 hlt

/-- Witness for C7: refresh at time 1000, call again at 1010. -/
theorem mta_c7_witness :
    MTASubwayData.update
        (MTASubwayData.update stInit 1000 (.ok respVanC)
          [FetchResponse.mk 200 (some feedN)]).state 1010 (.error (FetchError.mk "down"))
        [] =
      { state := (MTASubwayData.update stInit 1000 (.ok respVanC)
          [FetchResponse.mk 200 (some feedN)]).state
        fetched := false
        result := .ok () } :=
  mta_c7_throttled_second_call stInit 1000 1010 (.ok respVanC)
    (.error (FetchError.mk "down")) [FetchResponse.mk 200 (some feedN)] []
    (by decide) (by decide) (by decide)

/-- C8 failing case: with watched stop `101N` and a feed whose only
stop-time update is for the unwatched `101S`, the published arrivals
mapping rightly has no key `101N`; but the sensor read at sensor.py line
128 indexes the published defaultdict, which inserts the missing key
bound to the empty list — reading the snapshot mutates it, against the
claim. -/
theorem mta_c8_read_inserts_empty_key :
    (MTASubwayData.update stInit 1000 (.ok respVanC)
        [FetchResponse.mk 200 (some feedS)]).state.data =
      some (SnapshotData.mk dirVanC []) ∧
    dlookup (SnapshotData.mk dirVanC []).arrivals "101N" = none ∧
    (MTASubwaySensor.read_arrivals (SnapshotData.mk dirVanC [])
        "101N").1.arrivals = [("101N", [])] ∧
    dlookup (MTASubwaySensor.read_arrivals (SnapshotData.mk dirVanC [])
        "101N").1.arrivals "101N" = some [] := by decide

/-- C9 counterexample: the snapshot dict published by a successful
refresh has the keys `stations` and `arrivals` but no `generatedAt` key,
refuting the claimed shape at this concrete input. -/
theorem mta_c9_counterexample :
    ((MTASubwayData.update stInit 1000 (.ok respVanC)
        [FetchResponse.mk 200 (some feedN)]).state.data).map
      (fun s => (dlookup s.toDict "generatedAt",
                 (dlookup s.toDict "stations").isSome,
                 (dlookup s.toDict "arrivals").isSome)) =
      some (none, true, true) := by decide

/-- C9 amended: every successful refresh publishes, as one whole value, a
snapshot consisting of the station directory and the arrivals mapping
(and nothing else — its dict form has exactly those two keys), replacing
the previous snapshot atomically. -/
theorem mta_c9_snapshot_two_fields (st : MTASubwayData) (now : Int)
    (net : Except FetchError StationsResponse) (resp : List FetchResponse)
    (d : StationDirectory)
    (hstale : ∀ t, st.last_update = some t → ¬now - t < SCAN_INTERVAL)
    (hgs : MTASubwayData.get_stations net = .ok d) :
    (MTASubwayData.update st now net resp).state.data =
      some (SnapshotData.mk d (aggregate d st.watched_stations now
        (MTASubwayData.get_realtime_data resp))) ∧
    ∀ s : SnapshotData, s.toDict =
      [("stations", SnapshotField.stations s.stations),
       ("arrivals", SnapshotField.arrivals s.arrivals)] := by
  have hbody : MTASubwayData.update st now net resp =
      MTASubwayData.update_body st now net resp := by
    cases hlu : st.last_update with
    | none => exact update_eq_body_none st now net resp hlu
    | some t => exact update_eq_body_some st now net resp t hlu (hstale t hlu)
  rw [hbody, update_body_eq_ok st now net resp d hgs]
  exact ⟨rfl, fun s => rfl⟩

/-- Witness for C9 amended at the scenario input. -/
theorem mta_c9_witness :
    (MTASubwayData.update stInit 1000 (.ok respVanC)
        [FetchResponse.mk 200 (some feedN)]).state.data =
      some (SnapshotData.mk dirVanC
        (aggregate dirVanC stInit.watched_stations 1000
          (MTASubwayData.get_realtime_data
            [FetchResponse.mk 200 (some feedN)]))) ∧
    ∀ s : SnapshotData, s.toDict =
      [("stations", SnapshotField.stations s.stations),
       ("arrivals", SnapshotField.arrivals s.arrivals)] :=
  mta_c9_snapshot_two_fields stInit 1000 (.ok respVanC)
    [FetchResponse.mk 200 (some feedN)] dirVanC
    (fun t ht => by cases ht) (by decide)

/-- C10: whenever the header carries every required column the load
succeeds (duplicate GTFS Stop IDs never make it fail), each key of the
resulting dict holds the record of the last row bearing that id (later
rows silently overwrite earlier ones), and the keys are pairwise
distinct. -/
theorem mta_c10_last_row_wins (resp : StationsResponse)
    (hcols : ∀ c ∈ requiredColumns, c ∈ resp.header) :
    ∃ d, MTASubwayData.get_stations (.ok resp) = .ok d ∧
      (∀ k, dlookup d k = lastValue k (parsedRows resp.header resp.rows)) ∧
      (dkeys d).Pairwise (· ≠ ·) := by
  obtain ⟨d, hd⟩ := buildStations_ok_of_cols resp.header hcols resp.rows []
  refine ⟨d, hd, ?_, ?_⟩
  · intro k
    have h := buildStations_lookup resp.header resp.rows [] d hd k
    rw [h]
    cases hlv : lastValue k (parsedRows resp.header resp.rows) <;>
      simp [dlookup]
  · exact buildStations_keys resp.header resp.rows [] d hd (by simp [dkeys])

/-- A station response with two rows sharing GTFS Stop ID 101. -/
def respDup : StationsResponse :=
  ⟨200, requiredColumns,
    [["First", "S1", "N1", "1", "101"], ["Second", "S2", "N2", "2", "101"]]⟩

/-- Witness for C10 on a table with a duplicated stop id. -/
theorem mta_c10_witness :
    ∃ d, MTASubwayData.get_stations (.ok respDup) = .ok d ∧
      (∀ k, dlookup d k = lastValue k (parsedRows respDup.header respDup.rows)) ∧
      (dkeys d).Pairwise (· ≠ ·) :=
  mta_c10_last_row_wins respDup (by decide)
